import Mathlib

/-!
Verification development for the expense-classification / expense-forecast
lambda (files `expenses_classifier.py`, `expenses_predictor.py`).

Modelling conventions (shallow embedding):
* pandas `NaN` cells are `Option.none`; raw table cells are `Option String`
  (a non-missing cell holds the raw text; numeric coercion is `parseRat`).
* a pandas `DataFrame` is a `List` of row records; the positional index of
  a row is its label (the source tables use the default `RangeIndex`).
* Python exceptions that escape a function are `Except.error`; the in-place
  mutation that `classify_expenses` performs on its `data` argument is
  modelled by threading the table state: the function returns the final
  state of `data`, so "the caller's table is unmodified" reads
  "final state = initial state".
* monetary / float quantities are `ℚ`; Python `round(x, 2)` is `round2`
  (round half to even on exact rationals).
-/

/-- Python `round` to an integer: round half to even (banker's rounding),
on an exact rational. -/
def roundHalfEven (q : ℚ) : ℤ :=
  let f := ⌊q⌋
  let r := q - f
  if r < 1/2 then f
  else if 1/2 < r then f + 1
  else if f % 2 = 0 then f else f + 1

/-- Python `round(x, 2)`. -/
def round2 (q : ℚ) : ℚ := (roundHalfEven (q * 100) : ℚ) / 100

/-- Predicate: `q` is an exact multiple of `0.01` (a monetary amount at 2-decimal
precision, the data-model invariant for `amount`). -/
def isCent (q : ℚ) : Prop := ∃ z : ℤ, q = (z : ℚ) / 100

/-! ### Date parsing

`pd.to_datetime(col, format=F)` / `datetime.strptime(s, F)` for the two
formats the source uses: `%Y-%m-%d` and `%d/%m/%Y`.  A field is 1–2 digits
(1–4 for the year), and the calendar date must exist (strptime validates
month and day ranges). -/

/-- Split a character list on a separator, `str.split(sep)`-style
(always at least one piece; empty pieces preserved). -/
def splitOnChar (sep : Char) : List Char → List (List Char)
  | [] => [[]]
  | c :: cs =>
    let r := splitOnChar sep cs
    if c = sep then [] :: r
    else
      match r with
      | [] => [[c]]
      | h :: t => (c :: h) :: t

def isDigitChar (c : Char) : Bool := 48 ≤ c.toNat && c.toNat ≤ 57

def digitVal (c : Char) : ℕ := c.toNat - 48

/-- Numeric value of a nonempty all-digit character run. -/
def digitsToNat (cs : List Char) : Option ℕ :=
  if cs.isEmpty || !(cs.all isDigitChar) then none
  else some (cs.foldl (fun a c => 10 * a + digitVal c) 0)

/-- Value of an all-digit field of length `1..maxLen`. -/
def numField (cs : List Char) (maxLen : ℕ) : Option ℕ :=
  if maxLen < cs.length then none else digitsToNat cs

structure CDate where
  year : ℕ
  month : ℕ
  day : ℕ
deriving DecidableEq, Repr

def isLeap (y : ℕ) : Bool := y % 4 = 0 && (y % 100 ≠ 0 || y % 400 = 0)

def daysInMonth (y m : ℕ) : ℕ :=
  if m = 2 then (if isLeap y then 29 else 28)
  else if m = 4 || m = 6 || m = 9 || m = 11 then 30
  else 31

def validYMD (y m d : ℕ) : Bool :=
  1 ≤ m && m ≤ 12 && 1 ≤ d && d ≤ daysInMonth y m

def mkDate? (y m d : Option ℕ) : Option CDate :=
  match y, m, d with
  | some y, some m, some d => if validYMD y m d then some ⟨y, m, d⟩ else none
  | _, _, _ => none

/-- Strict parse under format `%Y-%m-%d`. -/
def parseISO (s : String) : Option CDate :=
  match splitOnChar '-' s.toList with
  | [ys, ms, ds] => mkDate? (numField ys 4) (numField ms 2) (numField ds 2)
  | _ => none

/-- Strict parse under format `%d/%m/%Y`. -/
def parseDMY (s : String) : Option CDate :=
  match splitOnChar '/' s.toList with
  | [ds, ms, ys] => mkDate? (numField ys 4) (numField ms 2) (numField ds 2)
  | _ => none

def sakamotoT : List ℕ := [0, 3, 2, 5, 0, 3, 5, 1, 4, 6, 2, 4]

/-- Day of week with Monday = 0 .. Sunday = 6 (pandas `Series.dt.dayofweek`),
via Sakamoto's congruence for the Gregorian calendar. -/
def dayOfWeekMon0 (d : CDate) : ℕ :=
  let y := if d.month < 3 then d.year - 1 else d.year
  let sundayZero :=
    (y + y / 4 - y / 100 + y / 400 + sakamotoT.getD (d.month - 1) 0 + d.day) % 7
  (sundayZero + 6) % 7

/-- Python `float(s)` / `pd.to_numeric(s, errors='coerce')` on the decimal
notations that occur in the data: optional sign, digits, optional
fractional part. -/
def parseRat (s : String) : Option ℚ :=
  let signAndRest : ℚ × List Char :=
    match s.toList with
    | '-' :: r => (-1, r)
    | r => (1, r)
  match splitOnChar '.' signAndRest.2 with
  | [ip] => (digitsToNat ip).map (fun n => signAndRest.1 * (n : ℚ))
  | [ip, fp] =>
    match digitsToNat ip, digitsToNat fp with
    | some n, some f =>
      some (signAndRest.1 * ((n : ℚ) + (f : ℚ) / (10 : ℚ) ^ fp.length))
    | _, _ => none
  | _ => none

/-! ### String ordering

numpy's `np.unique` sorts strings by code-point lexicographic order (the
same order as Python `<` on `str`).  Modelled by a Boolean lexicographic
comparison on the character list. -/

def charListLt : List Char → List Char → Bool
  | _, [] => false
  | [], _ :: _ => true
  | a :: as, b :: bs =>
    a.toNat < b.toNat || (a.toNat = b.toNat && charListLt as bs)

def strLtB (a b : String) : Bool := charListLt a.toList b.toList

def strLeB (a b : String) : Bool := strLtB a b || a == b

/-- The sort order used by `np.unique`, as a proposition. -/
def strLe' : String → String → Prop := fun a b => strLeB a b = true

instance : DecidableRel strLe' := fun a b => by unfold strLe'; infer_instance

/-! ### Date column → DayOfWeek (expenses_classifier.py lines 100–113)

The code first attempts `pd.to_datetime(df['date'], format='%Y-%m-%d',
errors='raise')` on the whole column; that raises iff some non-null entry
fails the format.  Only then does it fall back to
`pd.to_datetime(df['date'], format='%d/%m/%Y', errors='coerce')`, which
turns individually unparseable entries into `NaT` (hence `NaN` day-of-week)
instead of failing the column.  A null cell is `NaT` under both paths. -/

def deriveDOW (col : List (Option String)) : List (Option ℕ) :=
  if col.all (fun s =>
      match s with
      | none => true
      | some str => (parseISO str).isSome) then
    col.map (fun s => (s.bind parseISO).map dayOfWeekMon0)
  else
    col.map (fun s => (s.bind parseDMY).map dayOfWeekMon0)

/-- The batched `warnings.warn` for undetermined day-of-week fires iff the
derived column has a null (lines 110–113). -/
def dowWarning (col : List (Option String)) : Bool :=
  (deriveDOW col).any (fun o => o.isNone)

/-! ### Categorical encoding (expenses_classifier.py lines 116–138)

`df[col] = df[col].fillna('Missing')`, then either a pre-fitted
`LabelEncoder` is applied with an unseen-category fallback, or a fresh
`LabelEncoder` is fitted.  A fitted sklearn `LabelEncoder` stores
`classes_` = `np.unique(values)`, i.e. the distinct values sorted
ascending, and `transform` maps a value to its index in `classes_`. -/

/-- Model of `fillna('Missing')` on a column. -/
def fillCol (col : List (Option String)) : List String :=
  col.map (fun s => s.getD "Missing")

/-- Model of `LabelEncoder.fit`: `classes_ = np.unique(vals)` — the distinct values
in ascending (lexicographic) order. -/
def leClasses (vals : List String) : List String :=
  (vals.dedup).insertionSort strLe'

/-- Fit mode (`encoders=None` branch, lines 133–138): fill missing with the
sentinel, fit a fresh `LabelEncoder`, return the per-row codes of
`fit_transform`. -/
def fitEncodeCol (col : List (Option String)) : List ℕ :=
  (fillCol col).map (fun v => (leClasses (fillCol col)).indexOf v)

/-- Apply mode (lines 120–132).  `le.transform` raises iff some value is
absent from `classes_`; the `except` branch then warns with the count of
unseen values, codes unseen values as 0 and seen values by lookup.  The
vocabulary is abstracted as the list `classes` with value `classes[i]`
having stored code `i`.  Returns (codes, number of unseen values); a
warning is emitted iff the count is nonzero. -/
def applyEncodeCol (classes : List String) (vals : List String) : List ℚ × ℕ :=
  if vals.all (fun v => classes.contains v) then
    (vals.map (fun v => ((classes.indexOf v : ℕ) : ℚ)), 0)
  else
    (vals.map (fun v => if classes.contains v then ((classes.indexOf v : ℕ) : ℚ) else 0),
     (vals.filter (fun v => !(classes.contains v))).length)

/-! ### The classification pipeline (expenses_classifier.py)

`FEATURE_COLS = ['amount', 'date', 'category', 'description/merchant']`.
A raw table row holds those four cells (plus the derived
`predicted_expense_type` column, `none` = never set).  The `merchant`
field models the `description/merchant` column. -/

structure RawRow where
  amount : Option String
  date : Option String
  category : Option String
  merchant : Option String
  predicted : Option String := none
deriving DecidableEq, Repr

def defaultRow : RawRow := ⟨none, none, none, none, none⟩

/-- Model of `data.dropna(subset=FEATURE_COLS)`: keeps a row iff all four feature
cells are non-null. -/
def rowComplete (r : RawRow) : Bool :=
  r.amount.isSome && r.date.isSome && r.category.isSome && r.merchant.isSome

/-- The rows surviving the pre-filter, with their original index
(`data.dropna(subset=FEATURE_COLS).index`, line 37). -/
def validPairs (data : List RawRow) : List (ℕ × RawRow) :=
  data.enum.filter (fun p => rowComplete p.2)

def validIdx (data : List RawRow) : List ℕ := (validPairs data).map Prod.fst

def subRows (data : List RawRow) : List RawRow := (validPairs data).map Prod.snd

/-- The persisted artifacts `classify_expenses` loads: the two categorical
vocabularies, the fitted `StandardScaler` parameters, and the composite
`model.predict` + `target_le.inverse_transform` step, abstracted as a
per-feature-vector label function (the model artifact's interface). -/
structure ScalerP where
  mean : List ℚ
  scale : List ℚ

structure Artifacts where
  catClasses : List String
  merchClasses : List String
  scaler : ScalerP
  predictLabel : List ℚ → String

/-- Model of `StandardScaler.transform` on one row: per column `(x - mean) / scale`. -/
def scaleRow (sc : ScalerP) (v : List ℚ) : List ℚ :=
  (v.zip (sc.mean.zip sc.scale)).map (fun p => (p.1 - p.2.1) / p.2.2)

/-- Model of `preprocess_expense_df_inference(df, FEATURE_COLS, encoders, scaler)`
(lines 80–177), specialized to the inference call: encoders and scaler
supplied.  Steps, in source order: derive `DayOfWeek` from `date`;
fill + encode `category` and `description/merchant`; coerce `amount` to
numeric; assemble `X_cols_final = [amount, DayOfWeek, category_enc,
description/merchant_enc]`; drop rows with a null among those; scale iff
the matrix is non-empty.  Returns the feature matrix `X` (the function
also returns the final column names, and `None` encoders/scaler; those
carry no row information — in particular the surviving row indices are
*not* returned). -/
def preprocess_expense_df_inference (art : Artifacts) (rows : List RawRow) :
    List (List ℚ) :=
  let dow := deriveDOW (rows.map RawRow.date)
  let catC := (applyEncodeCol art.catClasses (fillCol (rows.map RawRow.category))).1
  let merC := (applyEncodeCol art.merchClasses (fillCol (rows.map RawRow.merchant))).1
  let amt := rows.map (fun r => r.amount.bind parseRat)
  let vecs := (List.range rows.length).filterMap (fun i =>
    match amt.getD i none, dow.getD i none with
    | some a, some w => some [a, (w : ℚ), catC.getD i 0, merC.getD i 0]
    | _, _ => none)
  if vecs.isEmpty then vecs else vecs.map (scaleRow art.scaler)

/-- The matrix handed to `model.predict` (line 46; the call is
unconditional — there is no emptiness guard between assembly and
prediction). -/
def assembledX (art : Artifacts) (data : List RawRow) : List (List ℚ) :=
  preprocess_expense_df_inference art (subRows data)

/-- Model of `preds_label` (lines 46–49): `model.predict` on each feature row,
inverse-transformed to a string label. -/
def predsOf (art : Artifacts) (data : List RawRow) : List String :=
  (assembledX art data).map art.predictLabel

def setLabel (r : RawRow) (l : Option String) : RawRow :=
  match l with
  | none => r
  | some s => { r with predicted := some s }

/-- Model of the write-back `data.loc[valid_idx, 'predicted_expense_type'] = preds_label`
(line 52).  pandas raises `ValueError: Must have equal len keys and value
when setting with an iterable` when the label list and the index list
have different lengths; otherwise row `valid_idx[k]` receives label
`preds_label[k]` and every other row is untouched. -/
def writeBack (data : List RawRow) (idxs : List ℕ) (labels : List String) :
    Except String (List RawRow) :=
  if idxs.length = labels.length then
    Except.ok (data.enum.map (fun p => setLabel p.2 ((idxs.zip labels).lookup p.1)))
  else
    Except.error "Must have equal len keys and value when setting with an iterable"

/-- Model of `get_wants_and_needs_percentages` (lines 179–199): denominator is the
length of the table it is handed (`classify_expenses` passes the *full*
table); counts are rows whose predicted label equals the literal. -/
def get_wants_and_needs_percentages (rows : List RawRow) : ℚ × ℚ :=
  let total := rows.length
  if total = 0 then (0, 0)
  else
    let wantsCount := (rows.filter (fun r => r.predicted == some "want")).length
    let needsCount := (rows.filter (fun r => r.predicted == some "need")).length
    (round2 (((wantsCount : ℚ) / (total : ℚ)) * 100),
     round2 (((needsCount : ℚ) / (total : ℚ)) * 100))

structure Detail where
  amount : ℚ
  date : String
  category : String
  description : String
  want : Bool
deriving DecidableEq, Repr

/-- The `expense_details` list (lines 62–71): one record per row with a
non-null predicted label. -/
def detailsOf (rows : List RawRow) : List Detail :=
  rows.filterMap (fun r => r.predicted.map (fun p =>
    { amount := (r.amount.bind parseRat).getD 0
      date := r.date.getD ""
      category := r.category.getD ""
      description := r.merchant.getD ""
      want := p == "want" }))

structure ClassifyOut where
  data : List RawRow
  matrix : List (List ℚ)
  wants : ℚ
  needs : ℚ
  details : List Detail
deriving DecidableEq, Repr

/-- Model of `classify_expenses(s3, data, ...)` (lines 12–78), with the artifact
loads abstracted into `art` and the optional CSV upload (an external
effect) omitted.  `matrix` records the argument of the unconditional
`model.predict` call; `data` is the final state of the caller's table
(the write-back at line 52 mutates `data` in place). -/
def classify_expenses (art : Artifacts) (data : List RawRow) :
    Except String ClassifyOut :=
  match writeBack data (validIdx data) (predsOf art data) with
  | Except.error e => Except.error e
  | Except.ok d2 =>
    Except.ok
      { data := d2
        matrix := assembledX art data
        wants := (get_wants_and_needs_percentages d2).1
        needs := (get_wants_and_needs_percentages d2).2
        details := detailsOf d2 }

/-! Projections of a pipeline result, used to state properties without
needing decidable equality of the whole `Except`. -/

def resultData (r : Except String ClassifyOut) : Option (List RawRow) :=
  r.toOption.map ClassifyOut.data

def resultMatrix (r : Except String ClassifyOut) : Option (List (List ℚ)) :=
  r.toOption.map ClassifyOut.matrix

def resultPcts (r : Except String ClassifyOut) : Option (ℚ × ℚ) :=
  r.toOption.map (fun o => (o.wants, o.needs))

def isError (r : Except String ClassifyOut) : Bool :=
  match r with
  | Except.error _ => true
  | Except.ok _ => false

def countLabeled (r : Except String ClassifyOut) (lab : String) : ℕ :=
  match r with
  | Except.ok o => (o.data.filter (fun row => row.predicted == some lab)).length
  | Except.error _ => 0

/-! ### The snapshot aggregator (expenses_predictor.py lines 98–147) -/

structure Tx where
  year : ℕ
  month : ℕ
  day : ℕ
  amount : ℚ
deriving DecidableEq, Repr

def snapshot_days : List ℕ := [5, 10, 15, 20, 25, 28]

def expensive_threshold : ℚ := 100

structure Snapshot where
  year : ℕ
  month : ℕ
  day : ℕ
  total_so_far : ℚ
  avg_daily_so_far : ℚ
  num_expensive_transactions : ℕ
  num_transactions : ℕ
  target_total_expenses : ℚ
deriving DecidableEq, Repr

/-- One `(year, month)` group of `df.groupby(['year', 'month'])`. -/
def monthGroup (txs : List Tx) (y m : ℕ) : List Tx :=
  txs.filter (fun t => t.year == y && t.month == m)

/-- Model of `group[group['day'] <= day_cutoff]`. -/
def sliceUpTo (g : List Tx) (c : ℕ) : List Tx := g.filter (fun t => t.day ≤ c)

/-- Lexicographic order on `(year, month)` keys — pandas `groupby` sorts
group keys ascending. -/
def keyLe : ℕ × ℕ → ℕ × ℕ → Prop :=
  fun a b => a.1 < b.1 ∨ (a.1 = b.1 ∧ a.2 ≤ b.2)

instance : DecidableRel keyLe := fun a b => by unfold keyLe; infer_instance

/-- The distinct `(year, month)` keys of the table, in groupby order. -/
def txKeys (txs : List Tx) : List (ℕ × ℕ) :=
  ((txs.map (fun t => (t.year, t.month))).dedup).insertionSort keyLe

/-- The snapshot dict built for one group and one cutoff (lines 127–136). -/
def mkSnapshot (g : List Tx) (y m c : ℕ) : Snapshot :=
  let p := sliceUpTo g c
  { year := y
    month := m
    day := c
    total_so_far := (p.map Tx.amount).sum
    avg_daily_so_far := (p.map Tx.amount).sum / (c : ℚ)
    num_expensive_transactions := (p.filter (fun t => expensive_threshold < t.amount)).length
    num_transactions := p.length
    target_total_expenses := (g.map Tx.amount).sum }

/-- Lines 122–137: a cutoff whose partial slice is empty is skipped. -/
def snapshotOpt (g : List Tx) (y m c : ℕ) : Option Snapshot :=
  if (sliceUpTo g c).isEmpty then none else some (mkSnapshot g y m c)

/-- Selector for snapshots of a given group and cutoff. -/
def snapKeyP (y m c : ℕ) (s : Snapshot) : Bool :=
  s.year == y && s.month == m && s.day == c

def snapshotsForKey (txs : List Tx) (ym : ℕ × ℕ) : List Snapshot :=
  snapshot_days.filterMap (fun c => snapshotOpt (monthGroup txs ym.1 ym.2) ym.1 ym.2 c)

/-- Model of `generate_snapshots(df, snapshot_days)` (lines 115–139): iterate the
groups in groupby order, then the fixed cutoffs in order. -/
def generate_snapshots (txs : List Tx) : List Snapshot :=
  (txKeys txs).flatMap (snapshotsForKey txs)

/-! ### The current-month daily series (expenses_predictor.py lines 51–95) -/

structure PExpense where
  amount : ℚ
  date : String
deriving DecidableEq, Repr

structure DayEntry where
  day : ℕ
  totalMonthExpensesTillToday : ℚ
deriving DecidableEq, Repr

/-- Comparison `d.date() <= today.date()` on parsed calendar dates. -/
def dateLe (d t : CDate) : Bool :=
  d.year < t.year ||
    (d.year == t.year && (d.month < t.month || (d.month == t.month && d.day ≤ t.day)))

/-- The current-month filter (lines 68–73): same month, same year, not in
the future.  Every date in the table is parsed strictly as `%Y-%m-%d`. -/
def current_month_filter (today : CDate) (exps : List PExpense) : List PExpense :=
  exps.filter (fun e =>
    match parseISO e.date with
    | some d => d.month == today.month && d.year == today.year && dateLe d today
    | none => false)

/-- Model of `daily_totals[day]` (lines 76–80): sum of the current-month amounts on
that calendar day (0 when no transaction fell on it). -/
def daily_total (today : CDate) (exps : List PExpense) (day : ℕ) : ℚ :=
  (((current_month_filter today exps).filter
      (fun e => (parseISO e.date).map CDate.day == some day)).map PExpense.amount).sum

/-- The loop of lines 87–93: `for day in range(1, current_day+1):
cumulative_total += daily_totals[day]; append {'day': day,
'totalMonthExpensesTillToday': round(cumulative_total, 2)}`.
`buildGo daily day n cum` emits the entries for `day, day+1, ...,
day+n-1` starting from running total `cum`. -/
def buildGo (daily : ℕ → ℚ) : ℕ → ℕ → ℚ → List DayEntry
  | _, 0, _ => []
  | day, n+1, cum =>
    let c := cum + daily day
    ⟨day, round2 c⟩ :: buildGo daily (day + 1) n c

/-- Sum `daily start + daily (start+1) + ... + daily (start+len-1)` — the
cumulative total after processing `len` days beginning at `start`. -/
def partSum (daily : ℕ → ℚ) : ℕ → ℕ → ℚ
  | _, 0 => 0
  | start, len+1 => daily start + partSum daily (start + 1) len

/-- Model of `get_current_month_expenses()` (lines 51–95) with the S3 fetch and
`datetime.now()` abstracted into parameters.  Each list-comprehension
filter row evaluates `datetime.strptime(expense['date'], '%Y-%m-%d')`,
which raises `ValueError` on the first date not in that format, aborting
the call; otherwise the cumulative per-day series for days
`1..today.day` is returned. -/
def get_current_month_expenses (today : CDate) (exps : List PExpense) :
    Except String (List DayEntry) :=
  if exps.any (fun e => (parseISO e.date).isNone) then
    Except.error "time data does not match format %Y-%m-%d"
  else
    Except.ok (buildGo (daily_total today exps) 1 today.day 0)

/-! ### Concrete tables and artifacts used in the counterexamples and
witnesses -/

/-- Constant-prediction artifacts: vocabularies `["Food", "Transport"]`
and `["A", "B"]`, identity scaling, a classifier that labels every
vector `"want"`. -/
def artConst : Artifacts :=
  { catClasses := ["Food", "Transport"]
    merchClasses := ["A", "B"]
    scaler := { mean := [0, 0, 0, 0], scale := [1, 1, 1, 1] }
    predictLabel := fun _ => "want" }

/-- One fully valid row. -/
def T1 : List RawRow :=
  [{ amount := some "10", date := some "2024-01-15", category := some "Food",
     merchant := some "A" }]

/-- Five rows, all with valid ISO dates; the row at index 3 has a missing
`category` and is dropped by the pre-filter. -/
def T5 : List RawRow :=
  [{ amount := some "10", date := some "2024-01-15", category := some "Food", merchant := some "A" },
   { amount := some "20", date := some "2024-01-16", category := some "Food", merchant := some "B" },
   { amount := some "30", date := some "2024-01-17", category := some "Transport", merchant := some "A" },
   { amount := some "40", date := some "2024-01-18", category := none, merchant := some "B" },
   { amount := some "50", date := some "2024-01-19", category := some "Food", merchant := some "A" }]

/-- Three rows, each with a missing `category`: the pre-filter removes
every row and the assembled matrix is empty. -/
def T3m : List RawRow :=
  [{ amount := some "10", date := some "2024-01-15", category := none, merchant := some "A" },
   { amount := some "20", date := some "2024-01-16", category := none, merchant := some "B" },
   { amount := some "30", date := some "2024-01-17", category := none, merchant := some "A" }]

/-- Two rows that both pass the pre-filter; the whole column fails the ISO
format (row 0 is `%d/%m/%Y`), and under the fallback row 1's date parses
under neither format, so its day-of-week is undetermined and the row is
dropped *after* the pre-filter. -/
def T2bad : List RawRow :=
  [{ amount := some "10", date := some "15/01/2024", category := some "Food", merchant := some "A" },
   { amount := some "20", date := some "99/99/9999", category := some "Food", merchant := some "B" }]

/-- Transactions of the spec's snapshot example. -/
def txs7 : List Tx :=
  [{ year := 2024, month := 1, day := 1, amount := 50 },
   { year := 2024, month := 1, day := 3, amount := 30 },
   { year := 2024, month := 1, day := 10, amount := 20 }]

/-- A small ledger for the daily-series witness: two current-month past
transactions, one previous-month, one future. -/
def elist8 : List PExpense :=
  [{ amount := 10, date := "2024-05-01" },
   { amount := 11/2, date := "2024-05-02" },
   { amount := 7, date := "2024-04-30" },
   { amount := 2, date := "2024-05-10" }]

instance instDecEqExcept {e a : Type} [DecidableEq e] [DecidableEq a] :
    DecidableEq (Except e a) := fun x y =>
  match x, y with
  | Except.error u, Except.error v =>
    decidable_of_iff (u = v) ⟨fun h => by rw [h], fun h => Except.error.inj h⟩
  | Except.ok u, Except.ok v =>
    decidable_of_iff (u = v) ⟨fun h => by rw [h], fun h => Except.ok.inj h⟩
  | Except.error _, Except.ok _ => isFalse (fun hc => Except.noConfusion hc)
  | Except.ok _, Except.error _ => isFalse (fun hc => Except.noConfusion hc)

/-! ### Arithmetic helper lemmas -/

lemma round2_of_isCent (q : ℚ) (h : isCent q) : round2 q = q := by
  obtain ⟨z, rfl⟩ := h
  unfold round2 roundHalfEven
  have h100 : ((z : ℚ) / 100) * 100 = (z : ℚ) := by field_simp
  rw [h100]
  simp only [Int.floor_intCast]
  have hfr : (z : ℚ) - (z : ℚ) = 0 := by ring
  rw [hfr]
  rw [if_pos (by norm_num : (0 : ℚ) < 1/2)]

lemma isCent_zero : isCent 0 := ⟨0, by norm_num⟩

lemma isCent_add {a b : ℚ} (ha : isCent a) (hb : isCent b) : isCent (a + b) := by
  obtain ⟨x, rfl⟩ := ha
  obtain ⟨y, rfl⟩ := hb
  exact ⟨x + y, by push_cast; ring⟩

lemma isCent_intCast (z : ℤ) : isCent (z : ℚ) := ⟨z * 100, by push_cast; field_simp⟩

lemma round2_intCast (z : ℤ) : round2 (z : ℚ) = (z : ℚ) :=
  round2_of_isCent _ (isCent_intCast z)

lemma isCent_listSum (l : List ℚ) (h : ∀ x ∈ l, isCent x) : isCent l.sum := by
  induction l with
  | nil => simpa using isCent_zero
  | cons a t ih =>
    rw [List.sum_cons]
    exact isCent_add (h a (by simp)) (ih (fun x hx => h x (by simp [hx])))

/-! ### Properties of the string order -/

lemma charListLt_nil_right (as : List Char) : charListLt as [] = false := by
  cases as <;> rfl

lemma charListLt_irrefl (as : List Char) : charListLt as as = false := by
  induction as with
  | nil => rfl
  | cons a t ih => simp [charListLt, ih]

lemma charListLt_asymm :
    ∀ as bs, charListLt as bs = true → charListLt bs as = false := by
  intro as
  induction as with
  | nil =>
    intro bs _
    exact charListLt_nil_right bs
  | cons a t ih =>
    intro bs h
    cases bs with
    | nil => rw [charListLt_nil_right] at h; cases h
    | cons b u =>
      simp only [charListLt, Bool.or_eq_true, Bool.and_eq_true, decide_eq_true_eq] at h ⊢
      rcases h with h | ⟨heq, hlt⟩
      · have h1 : ¬ b.toNat < a.toNat := Nat.lt_asymm h
        have h2 : b.toNat ≠ a.toNat := fun hba => absurd (hba ▸ h) (Nat.lt_irrefl _)
        simp [h1, h2]
      · simp [heq, Nat.lt_irrefl, ih u hlt]

lemma charListLt_connex :
    ∀ as bs, charListLt as bs = false → charListLt bs as = false → as = bs := by
  intro as
  induction as with
  | nil =>
    intro bs h _
    cases bs with
    | nil => rfl
    | cons b u => simp [charListLt] at h
  | cons a t ih =>
    intro bs h h2
    cases bs with
    | nil => simp [charListLt] at h2
    | cons b u =>
      simp only [charListLt, Bool.or_eq_false_iff, Bool.and_eq_false_iff,
        decide_eq_false_iff_not] at h h2
      have hab : a.toNat = b.toNat := Nat.le_antisymm (Nat.le_of_not_lt h2.1) (Nat.le_of_not_lt h.1)
      have hchar : a = b := by
        apply Char.ext
        exact UInt32.ext (by simpa [Char.toNat] using hab)
      subst hchar
      rcases h.2 with hc | hc
      · exact absurd rfl hc
      · rcases h2.2 with hc2 | hc2
        · exact absurd rfl hc2
        · rw [ih u hc hc2]

lemma charListLt_trans :
    ∀ as bs cs, charListLt as bs = true → charListLt bs cs = true →
      charListLt as cs = true := by
  intro as
  induction as with
  | nil =>
    intro bs cs h h2
    cases bs with
    | nil => cases h
    | cons b u =>
      cases cs with
      | nil => rw [charListLt_nil_right] at h2; cases h2
      | cons c w => rfl
  | cons a t ih =>
    intro bs cs h h2
    cases bs with
    | nil => rw [charListLt_nil_right] at h; cases h
    | cons b u =>
      cases cs with
      | nil => rw [charListLt_nil_right] at h2; cases h2
      | cons c w =>
        simp only [charListLt, Bool.or_eq_true, Bool.and_eq_true, decide_eq_true_eq] at h h2 ⊢
        rcases h with h | ⟨hab, hlt⟩
        · rcases h2 with h2 | ⟨hbc, _⟩
          · exact Or.inl (Nat.lt_trans h h2)
          · exact Or.inl (hbc ▸ h)
        · rcases h2 with h2 | ⟨hbc, hlt2⟩
          · exact Or.inl (hab ▸ h2)
          · exact Or.inr ⟨hab.trans hbc, ih u w hlt hlt2⟩

lemma string_toList_inj {a b : String} (h : a.toList = b.toList) : a = b := by
  cases a; cases b
  simp only [String.toList] at h
  exact congrArg String.mk h

lemma strLe'_total (a b : String) : strLe' a b ∨ strLe' b a := by
  by_cases h : charListLt a.toList b.toList = true
  · left
    unfold strLe' strLeB strLtB
    rw [Bool.or_eq_true]
    exact Or.inl h
  · by_cases h2 : charListLt b.toList a.toList = true
    · right
      unfold strLe' strLeB strLtB
      rw [Bool.or_eq_true]
      exact Or.inl h2
    · have heq : a = b :=
        string_toList_inj
          (charListLt_connex _ _ (Bool.eq_false_iff.2 h) (Bool.eq_false_iff.2 h2))
      left
      unfold strLe' strLeB
      rw [Bool.or_eq_true]
      exact Or.inr (by simp [heq])

instance : IsTotal String strLe' := ⟨strLe'_total⟩

lemma strLe'_trans (a b c : String) : strLe' a b → strLe' b c → strLe' a c := by
  unfold strLe' strLeB
  intro h h2
  simp only [Bool.or_eq_true] at h h2 ⊢
  rcases h with h | h
  · rcases h2 with h2 | h2
    · exact Or.inl (charListLt_trans _ _ _ h h2)
    · have hbc : b = c := by simpa using h2
      subst hbc
      exact Or.inl h
  · have hab : a = b := by simpa using h
    subst hab
    rcases h2 with h2 | h2
    · exact Or.inl h2
    · exact Or.inr h2

instance : IsTrans String strLe' := ⟨strLe'_trans⟩

lemma strLtB_of_le_of_ne {a b : String} (h : strLe' a b) (hne : a ≠ b) :
    strLtB a b = true := by
  unfold strLe' strLeB at h
  simp only [Bool.or_eq_true] at h
  rcases h with h | h
  · exact h
  · exact absurd (by simpa using h) hne

lemma strLtB_irrefl (a : String) : strLtB a a = false := charListLt_irrefl _

lemma strLtB_asymm {a b : String} (h : strLtB a b = true) : strLtB b a = false :=
  charListLt_asymm _ _ h

/-! ### Rank characterization of a strictly sorted list -/

lemma sorted_indexOf_eq_filter_lt (l : List String)
    (hs : l.Pairwise (fun a b => strLtB a b = true)) (v : String) (hv : v ∈ l) :
    l.indexOf v = (l.filter (fun w => strLtB w v)).length := by
  induction l with
  | nil => cases hv
  | cons a t ih =>
    rcases List.pairwise_cons.1 hs with ⟨ha, ht⟩
    rcases List.mem_cons.1 hv with rfl | hv
    · rw [List.indexOf_cons_self]
      rw [List.filter_cons_of_neg (by simp [strLtB_irrefl])]
      rw [List.filter_eq_nil_iff.2 (fun w hw => by simp [strLtB_asymm (ha w hw)])]
      rfl
    · have hne : a ≠ v := by
        intro hEq
        have hvv := ha v hv
        rw [hEq, strLtB_irrefl] at hvv
        exact Bool.false_ne_true hvv
      rw [List.indexOf_cons_ne _ hne]
      rw [List.filter_cons_of_pos (by simp [ha v hv])]
      rw [List.length_cons, ih ht hv]

/-! ### List access helpers -/

lemma getD_map_of_lt {α β : Type} (f : α → β) (l : List α) (i : ℕ)
    (h : i < l.length) (d : α) (d2 : β) :
    (l.map f).getD i d2 = f (l.getD i d) := by
  rw [List.getD_eq_getElem?_getD, List.getElem?_map, List.getD_eq_getElem?_getD,
    List.getElem?_eq_getElem h]
  simp

lemma getD_mem_of_lt {α : Type} (l : List α) (i : ℕ) (h : i < l.length) (d : α) :
    l.getD i d ∈ l := by
  rw [List.getD_eq_getElem?_getD, List.getElem?_eq_getElem h, Option.getD_some]
  exact List.getElem_mem h

/-! ### Structure of the fitted vocabulary -/

lemma leClasses_pairwise_lt (vals : List String) :
    (leClasses vals).Pairwise (fun a b => strLtB a b = true) := by
  have hs : (leClasses vals).Pairwise strLe' :=
    List.sorted_insertionSort strLe' vals.dedup
  have hnd : (leClasses vals).Nodup :=
    ((List.perm_insertionSort strLe' vals.dedup).nodup_iff).2 (List.nodup_dedup vals)
  exact (hs.and hnd).imp (fun h => strLtB_of_le_of_ne h.1 h.2)

lemma mem_leClasses {vals : List String} {v : String} :
    v ∈ leClasses vals ↔ v ∈ vals := by
  unfold leClasses
  rw [(List.perm_insertionSort strLe' vals.dedup).mem_iff, List.mem_dedup]

/-- C3 — counterexample to the claim as stated.  Fit-mode encoding of the
column `["Transport", "Groceries"]` codes the *first-occurring* value
"Transport" as 1, not 0: sklearn's `LabelEncoder` assigns codes by sorted
order of the distinct values, not by first occurrence. -/
theorem c3_counterexample :
    fitEncodeCol [some "Transport", some "Groceries"] = [1, 0] ∧
    fitEncodeCol [some "Transport", some "Groceries"] ≠ [0, 1] := by decide

/-- C3 (amended): in fit mode the encoder first replaces missing values by
the sentinel "Missing" (which is coded like any other category), then
assigns each distinct value the unique non-negative code equal to its rank
in the ascending lexicographic order of the distinct values — the number
of distinct values strictly below it — independent of occurrence order
and frequency; distinct values receive distinct codes. -/
theorem c3_sorted_rank (col : List (Option String)) (i : ℕ) (hi : i < col.length) :
    (fitEncodeCol col).getD i 0 =
      ((fillCol col).dedup.filter
        (fun w => strLtB w ((fillCol col).getD i "Missing"))).length ∧
    (∀ v w, v ∈ fillCol col → w ∈ fillCol col →
      (leClasses (fillCol col)).indexOf v = (leClasses (fillCol col)).indexOf w →
        v = w) := by
  have hlen : i < (fillCol col).length := by simpa [fillCol] using hi
  constructor
  · rw [show fitEncodeCol col
        = (fillCol col).map (fun v => (leClasses (fillCol col)).indexOf v) from rfl]
    rw [getD_map_of_lt _ _ _ hlen "Missing" 0]
    have hvmem : (fillCol col).getD i "Missing" ∈ fillCol col :=
      getD_mem_of_lt _ _ hlen _
    rw [sorted_indexOf_eq_filter_lt _ (leClasses_pairwise_lt _) _ (mem_leClasses.2 hvmem)]
    exact ((List.perm_insertionSort strLe' (fillCol col).dedup).filter _).length_eq
  · intro v w hv hw hidx
    have h1 : (leClasses (fillCol col)).indexOf v < (leClasses (fillCol col)).length :=
      List.indexOf_lt_length.2 (mem_leClasses.2 hv)
    have h2 : (leClasses (fillCol col)).indexOf w < (leClasses (fillCol col)).length :=
      List.indexOf_lt_length.2 (mem_leClasses.2 hw)
    have e1 := List.getElem_indexOf h1
    have e2 := List.getElem_indexOf h2
    rw [← e1, ← e2]
    simp only [hidx]

/-- C3 witness: at the concrete column `["Transport", "Groceries", NaN]`
the first row's code is its sorted rank, 2 (sorted distinct values:
"Groceries" < "Missing" < "Transport"). -/
theorem c3_witness :
    0 < ([some "Transport", some "Groceries", none] : List (Option String)).length ∧
    (fitEncodeCol [some "Transport", some "Groceries", none]).getD 0 0 = 2 := by
  refine ⟨by decide, ?_⟩
  have h := (c3_sorted_rank [some "Transport", some "Groceries", none] 0 (by decide)).1
  rw [h]
  decide

/-- C5 (confirmed): apply-mode encoding is total ("never raises"): every
value present in the vocabulary maps to its stored code, every absent
value maps to code 0, and the batched-warning count is the number of
affected values (a warning is emitted iff it is nonzero). -/
theorem c5_apply_mode (classes vals : List String) :
    (applyEncodeCol classes vals).1.length = vals.length ∧
    (∀ i, i < vals.length →
      (applyEncodeCol classes vals).1.getD i 0 =
        (if classes.contains (vals.getD i "") then
          ((classes.indexOf (vals.getD i "") : ℕ) : ℚ) else 0)) ∧
    (applyEncodeCol classes vals).2 =
      (vals.filter (fun v => !(classes.contains v))).length ∧
    ((applyEncodeCol classes vals).2 ≠ 0 ↔
      ∃ v ∈ vals, classes.contains v = false) := by
  unfold applyEncodeCol
  by_cases hall : vals.all (fun v => classes.contains v) = true
  · rw [if_pos hall]
    refine ⟨by simp, ?_, ?_, ?_⟩
    · intro i hi
      rw [getD_map_of_lt _ _ _ hi "" 0]
      rw [if_pos ((List.all_eq_true.1 hall) _ (getD_mem_of_lt _ _ hi _))]
    · have hnil : vals.filter (fun v => !(classes.contains v)) = [] :=
        List.filter_eq_nil_iff.2
          (fun v hv => by simpa using (List.all_eq_true.1 hall) v hv)
      rw [hnil]
      rfl
    · constructor
      · intro h
        cases h rfl
      · rintro ⟨v, hv, hc⟩
        exact absurd (show v ∈ classes by
          simpa using (List.all_eq_true.1 hall) v hv) (by simpa using hc)
  · rw [if_neg hall]
    refine ⟨by simp, ?_, rfl, ?_⟩
    · intro i hi
      rw [getD_map_of_lt _ _ _ hi "" 0]
    · rw [Ne, List.length_eq_zero]
      constructor
      · intro h
        obtain ⟨x, hx⟩ := List.exists_mem_of_ne_nil _ h
        have hm := List.mem_filter.1 hx
        exact ⟨x, hm.1, by simpa using hm.2⟩
      · rintro ⟨v, hv, hc⟩ hnil
        have hmem : v ∈ vals.filter (fun v => !(classes.contains v)) :=
          List.mem_filter.2 ⟨hv, by simpa using hc⟩
        rw [hnil] at hmem
        cases hmem

/-- C5 witness: encoding "Pets" against the vocabulary
`{"Groceries": 0, "Dining Out": 1}` yields code 0 with one unseen value
counted, and does not raise. -/
theorem c5_witness :
    0 < (["Pets"] : List String).length ∧
    (applyEncodeCol ["Groceries", "Dining Out"] ["Pets"]).1.getD 0 0 = 0 ∧
    (applyEncodeCol ["Groceries", "Dining Out"] ["Pets"]).2 = 1 := by
  refine ⟨by decide, ?_, ?_⟩
  · have h := (c5_apply_mode ["Groceries", "Dining Out"] ["Pets"]).2.1 0 (by decide)
    rw [h]
    decide
  · have h := (c5_apply_mode ["Groceries", "Dining Out"] ["Pets"]).2.2.1
    rw [h]
    decide

/-- C4 (confirmed): the date column is handled in two tiers — if every
non-null entry parses strictly as `%Y-%m-%d`, the whole column is derived
under that format; if some entry fails it, the whole column falls back to
`%d/%m/%Y` with row-level coercion, rows failing that individually
becoming undetermined; the batched warning fires iff some row is
undetermined.  Concretely, `["2024-01-15", "2024-02-20"]` gives
day-of-week `[0, 1]` and `["15/01/2024"]` falls back and gives `[0]`. -/
theorem c4_date_two_tier :
    (∀ col : List (Option String),
      ((∀ s ∈ col, ∀ str, s = some str → (parseISO str).isSome = true) →
        deriveDOW col = col.map (fun s => (s.bind parseISO).map dayOfWeekMon0)) ∧
      ((∃ s ∈ col, ∃ str, s = some str ∧ parseISO str = none) →
        deriveDOW col = col.map (fun s => (s.bind parseDMY).map dayOfWeekMon0)) ∧
      (dowWarning col = true ↔ none ∈ deriveDOW col)) ∧
    deriveDOW [some "2024-01-15", some "2024-02-20"] = [some 0, some 1] ∧
    deriveDOW [some "15/01/2024"] = [some 0] := by
  refine ⟨fun col => ⟨?_, ?_, ?_⟩, by decide, by decide⟩
  · intro h
    unfold deriveDOW
    rw [if_pos (List.all_eq_true.2 (fun s hs => ?_))]
    cases s with
    | none => rfl
    | some str => exact h _ hs str rfl
  · rintro ⟨s, hs, str, rfl, hnone⟩
    unfold deriveDOW
    rw [if_neg ?_]
    intro hall
    have hc := (List.all_eq_true.1 hall) _ hs
    simp [hnone] at hc
  · unfold dowWarning
    rw [List.any_eq_true]
    simp [Option.isNone_iff_eq_none]

/-- C4 witness: a fallback-format column whose second entry parses under
neither format yields `[some 0, none]` and triggers the batched warning. -/
theorem c4_witness :
    deriveDOW [some "15/01/2024", some "bogus"] = [some 0, none] ∧
    dowWarning [some "15/01/2024", some "bogus"] = true := by
  constructor
  · have h := ((c4_date_two_tier.1 [some "15/01/2024", some "bogus"]).2.1)
      ⟨some "15/01/2024", by simp, "15/01/2024", rfl, by decide⟩
    rw [h]
    decide
  · exact ((c4_date_two_tier.1 [some "15/01/2024", some "bogus"]).2.2).2 (by decide)

/-! ### Inversion of classify_expenses -/

lemma classify_eq_ok (art : Artifacts) (data d2 : List RawRow)
    (hwb : writeBack data (validIdx data) (predsOf art data) = Except.ok d2) :
    classify_expenses art data = Except.ok
      { data := d2
        matrix := assembledX art data
        wants := (get_wants_and_needs_percentages d2).1
        needs := (get_wants_and_needs_percentages d2).2
        details := detailsOf d2 } := by
  unfold classify_expenses
  rw [hwb]

lemma classify_ok_inv (art : Artifacts) (data : List RawRow) (out : ClassifyOut)
    (h : classify_expenses art data = Except.ok out) :
    writeBack data (validIdx data) (predsOf art data) = Except.ok out.data ∧
    out.matrix = assembledX art data ∧
    out.wants = (get_wants_and_needs_percentages out.data).1 ∧
    out.needs = (get_wants_and_needs_percentages out.data).2 ∧
    out.details = detailsOf out.data := by
  unfold classify_expenses at h
  cases hwb : writeBack data (validIdx data) (predsOf art data) with
  | error e => rw [hwb] at h; cases h
  | ok d2 =>
    rw [hwb] at h
    injection h with h2
    subst h2
    exact ⟨rfl, rfl, rfl, rfl, rfl⟩

lemma writeBack_ok_length {data : List RawRow} {idxs : List ℕ}
    {labels : List String} {d2 : List RawRow}
    (h : writeBack data idxs labels = Except.ok d2) : d2.length = data.length := by
  unfold writeBack at h
  split at h
  · injection h with h2
    rw [← h2]
    simp [List.enum_length]
  · cases h

lemma writeBack_ok_fields {data : List RawRow} {idxs : List ℕ}
    {labels : List String} {d2 : List RawRow}
    (h : writeBack data idxs labels = Except.ok d2) (i : ℕ) (hi : i < data.length) :
    (d2.getD i defaultRow).amount = (data.getD i defaultRow).amount ∧
    (d2.getD i defaultRow).date = (data.getD i defaultRow).date ∧
    (d2.getD i defaultRow).category = (data.getD i defaultRow).category ∧
    (d2.getD i defaultRow).merchant = (data.getD i defaultRow).merchant := by
  unfold writeBack at h
  split at h
  · injection h with h2
    rw [← h2]
    have hie : i < data.enum.length := by simpa [List.enum_length] using hi
    rw [getD_map_of_lt _ _ _ hie (0, defaultRow) defaultRow]
    have he : data.enum.getD i (0, defaultRow) = (i, data.getD i defaultRow) := by
      rw [List.getD_eq_getElem?_getD, List.getElem?_eq_getElem hie, Option.getD_some,
        List.getElem_enum]
      rw [List.getD_eq_getElem?_getD, List.getElem?_eq_getElem hi, Option.getD_some]
    rw [he]
    cases hl2 : (idxs.zip labels).lookup i with
    | none => simp [setLabel, hl2]
    | some s => simp [setLabel, hl2]
  · cases h

/-- C1 — evaluation of the code at the spec's example and at a failing
input.  On the 5-row table whose row 3 lacks `category`, the pre-filter
leaves rows `[0,1,2,4]`, the matrix has 4 rows, and row 3 stays
unlabeled while the others receive predictions — the claim's example
behaves as stated.  But on `T2bad` both rows pass the pre-filter while
one is dropped *post*-transformation (undetermined day-of-week), and the
write-back — which uses the pre-filter index list because the assembler
never reports surviving row indices — raises the pandas length-mismatch
error instead of leaving the dropped row unset. -/
theorem c1_writeback_bug :
    (resultMatrix (classify_expenses artConst T5)).map List.length = some 4 ∧
    (resultData (classify_expenses artConst T5)).map (fun l => l.map RawRow.predicted) =
      some [some "want", some "want", some "want", none, some "want"] ∧
    validIdx T2bad = [0, 1] ∧
    (assembledX artConst T2bad).length = 1 ∧
    isError (classify_expenses artConst T2bad) = true := by decide

/-- C2 — the code has no empty-matrix guard.  On the 3-row all-missing
table the table itself is non-empty (so the `len == 0` short-circuit in
`get_wants_and_needs_percentages` does not apply), the assembled matrix
handed to the unconditional `model.predict` call is empty, and — when the
model artifact is modelled as a per-row label function, so that an empty
matrix yields an empty prediction list rather than the error a real
sklearn classifier raises on 0 samples — the percentages come out 0/0
via the zero numerator over the full 3-row denominator. -/
theorem c2_no_empty_guard :
    T3m.length = 3 ∧
    validIdx T3m = [] ∧
    resultMatrix (classify_expenses artConst T3m) = some [] ∧
    resultPcts (classify_expenses artConst T3m) = some (0, 0) := by
  refine ⟨by decide, by decide, by decide, ?_⟩
  have hwb : writeBack T3m (validIdx T3m) (predsOf artConst T3m) = Except.ok T3m := by
    decide
  rw [classify_eq_ok artConst T3m T3m hwb]
  simp only [resultPcts, Except.toOption, Option.map_some']
  have hw : (T3m.filter (fun r => r.predicted == some "want")).length = 0 := by decide
  have hn : (T3m.filter (fun r => r.predicted == some "need")).length = 0 := by decide
  have hlen : T3m.length = 3 := by decide
  unfold get_wants_and_needs_percentages
  rw [hlen, hw, hn]
  norm_num [round2, roundHalfEven]

/-- C6 (confirmed): whenever `classify_expenses` returns, its two
percentages are `round2 (100 * count / total)` where the counts are the
rows of the (full) final table labeled "want" / "need" and the
denominator is the length of the original full table — not the filtered
count (dropped rows are simply never labeled, so they deflate the
numerator, not the denominator). -/
theorem c6_percentages (art : Artifacts) (data : List RawRow)
    (h : isError (classify_expenses art data) = false) :
    resultPcts (classify_expenses art data) =
      some
        (round2 (100 * (countLabeled (classify_expenses art data) "want" : ℚ) /
          (data.length : ℚ)),
         round2 (100 * (countLabeled (classify_expenses art data) "need" : ℚ) /
          (data.length : ℚ))) := by
  cases hc : classify_expenses art data with
  | error e => rw [hc] at h; simp [isError] at h
  | ok out =>
    obtain ⟨hwb, _, hwants, hneeds, _⟩ := classify_ok_inv art data out hc
    have hlen : out.data.length = data.length := writeBack_ok_length hwb
    simp only [resultPcts, Except.toOption, Option.map_some', countLabeled]
    rw [hwants, hneeds]
    unfold get_wants_and_needs_percentages
    by_cases h0 : out.data.length = 0
    · rw [if_pos h0]
      have hd0 : (data.length : ℚ) = 0 := by
        rw [← hlen, h0]
        norm_num
      have hfw : (out.data.filter (fun r => r.predicted == some "want")).length = 0 := by
        rw [List.length_eq_zero.1 h0]
        rfl
      have hfn : (out.data.filter (fun r => r.predicted == some "need")).length = 0 := by
        rw [List.length_eq_zero.1 h0]
        rfl
      rw [hfw, hfn, hd0]
      norm_num [round2, roundHalfEven]
    · rw [if_neg h0]
      dsimp only
      have harith : ∀ c t : ℚ, (c / t) * 100 = 100 * c / t := by
        intro c t
        ring
      rw [harith, harith, hlen]

/-- C6 witness: on the 5-row table with 4 labeled "want" and none "need"
the result is `(round2 (100·4/5), round2 (100·0/5)) = (80, 0)` — the
denominator is 5, the full-table row count, although only 4 rows were
usable. -/
theorem c6_witness :
    isError (classify_expenses artConst T5) = false ∧
    resultPcts (classify_expenses artConst T5) = some (80, 0) := by
  refine ⟨by decide, ?_⟩
  rw [c6_percentages artConst T5 (by decide)]
  have hw : countLabeled (classify_expenses artConst T5) "want" = 4 := by decide
  have hn : countLabeled (classify_expenses artConst T5) "need" = 0 := by decide
  have hl : T5.length = 5 := by decide
  rw [hw, hn, hl]
  norm_num [round2, roundHalfEven]

/-- C9 — counterexample to the claim as stated: the caller's table is
*not* left unchanged.  `classify_expenses` sets the
`predicted_expense_type` column in place on the very table object the
caller passed (line 52 writes through `data.loc`), rather than on a copy:
the final state of `data` differs from the initial state. -/
theorem c9_counterexample :
    resultData (classify_expenses artConst T1) ≠ some T1 := by decide

/-- C9 (amended): `classify_expenses` mutates the caller's table only by
setting the `predicted_expense_type` column (in place, not on a copy):
whenever it returns, the table keeps its row count and every row keeps
its `amount`, `date`, `category` and `description/merchant` cells
unchanged. -/
theorem c9_frame (art : Artifacts) (data : List RawRow)
    (h : isError (classify_expenses art data) = false) :
    (resultData (classify_expenses art data)).map List.length = some data.length ∧
    (∀ i, i < data.length →
      (resultData (classify_expenses art data)).map
        (fun l => ((l.getD i defaultRow).amount, (l.getD i defaultRow).date,
                   (l.getD i defaultRow).category, (l.getD i defaultRow).merchant)) =
      some ((data.getD i defaultRow).amount, (data.getD i defaultRow).date,
            (data.getD i defaultRow).category, (data.getD i defaultRow).merchant)) := by
  cases hc : classify_expenses art data with
  | error e => rw [hc] at h; simp [isError] at h
  | ok out =>
    obtain ⟨hwb, _, _, _, _⟩ := classify_ok_inv art data out hc
    constructor
    · simp only [resultData, Except.toOption, Option.map_some']
      rw [writeBack_ok_length hwb]
    · intro i hi
      have hf := writeBack_ok_fields hwb i hi
      simp only [resultData, Except.toOption, Option.map_some']
      rw [hf.1, hf.2.1, hf.2.2.1, hf.2.2.2]

/-- C9 witness: on the one-row table the returned table state has the same
row count and unchanged feature cells (only `predicted_expense_type` was
added — see the counterexample for the in-place change itself). -/
theorem c9_witness :
    isError (classify_expenses artConst T1) = false ∧
    (resultData (classify_expenses artConst T1)).map List.length = some T1.length ∧
    (resultData (classify_expenses artConst T1)).map
      (fun l => ((l.getD 0 defaultRow).amount, (l.getD 0 defaultRow).date,
                 (l.getD 0 defaultRow).category, (l.getD 0 defaultRow).merchant)) =
      some ((T1.getD 0 defaultRow).amount, (T1.getD 0 defaultRow).date,
            (T1.getD 0 defaultRow).category, (T1.getD 0 defaultRow).merchant) := by
  exact ⟨by decide, (c9_frame artConst T1 (by decide)).1,
    (c9_frame artConst T1 (by decide)).2 0 (by decide)⟩

/-! ### Snapshot generation: exactly one snapshot per (group, cutoff) -/

lemma snapshotOpt_some {g : List Tx} {y m c : ℕ} {s : Snapshot}
    (h : snapshotOpt g y m c = some s) :
    s = mkSnapshot g y m c ∧ s.year = y ∧ s.month = m ∧ s.day = c := by
  unfold snapshotOpt at h
  split at h
  · cases h
  · injection h with h2
    subst h2
    exact ⟨rfl, rfl, rfl, rfl⟩

lemma filter_filterMap_days (g : List Tx) (y m c : ℕ) (days : List ℕ) (hc : c ∉ days) :
    (days.filterMap (fun k => snapshotOpt g y m k)).filter (snapKeyP y m c) = [] := by
  apply List.filter_eq_nil_iff.2
  intro s hs
  obtain ⟨k, hk, hsk⟩ := List.mem_filterMap.1 hs
  obtain ⟨_, hy, hm, hd⟩ := snapshotOpt_some hsk
  have hkc : k ≠ c := fun hEq => hc (hEq ▸ hk)
  simp [snapKeyP, hy, hm, hd, hkc]

lemma filterMap_days_filter_mem (g : List Tx) (y m c : ℕ) :
    ∀ days : List ℕ, days.Nodup → c ∈ days →
      (days.filterMap (fun k => snapshotOpt g y m k)).filter (snapKeyP y m c)
        = (snapshotOpt g y m c).toList := by
  intro days
  induction days with
  | nil =>
    intro _ hc
    cases hc
  | cons d rest ih =>
    intro hnd hc
    have hnd2 := List.nodup_cons.1 hnd
    rw [List.filterMap_cons]
    rcases List.mem_cons.1 hc with rfl | hcr
    · cases ho : snapshotOpt g y m c with
      | none =>
        rw [filter_filterMap_days g y m c rest hnd2.1]
        simp [ho]
      | some s =>
        obtain ⟨_, hy, hm, hd⟩ := snapshotOpt_some ho
        rw [List.filter_cons_of_pos (by simp [snapKeyP, hy, hm, hd])]
        rw [filter_filterMap_days g y m c rest hnd2.1]
        simp [ho]
    · have hdc : d ≠ c := fun hEq => hnd2.1 (hEq ▸ hcr)
      cases ho : snapshotOpt g y m d with
      | none => exact ih hnd2.2 hcr
      | some s =>
        obtain ⟨_, hy, hm, hd⟩ := snapshotOpt_some ho
        rw [List.filter_cons_of_neg (by simp [snapKeyP, hy, hm, hd, hdc])]
        exact ih hnd2.2 hcr

lemma snapshotsForKey_ne_key (txs : List Tx) (y m c : ℕ) (ym : ℕ × ℕ)
    (hne : ym ≠ (y, m)) :
    (snapshotsForKey txs ym).filter (snapKeyP y m c) = [] := by
  apply List.filter_eq_nil_iff.2
  intro s hs
  unfold snapshotsForKey at hs
  obtain ⟨k, hk, hsk⟩ := List.mem_filterMap.1 hs
  obtain ⟨_, hy, hm, _⟩ := snapshotOpt_some hsk
  have hsplit : ym.1 ≠ y ∨ ym.2 ≠ m := by
    by_contra hcon
    push_neg at hcon
    exact hne (Prod.ext hcon.1 hcon.2)
  rcases hsplit with h | h <;> simp [snapKeyP, hy, hm, h]

lemma flatMap_filter_nil {κ S : Type} (keys : List κ) (f : κ → List S) (p : S → Bool)
    (hall : ∀ a ∈ keys, (f a).filter p = []) :
    (keys.flatMap f).filter p = [] := by
  apply List.filter_eq_nil_iff.2
  intro s hs
  obtain ⟨a, ha, hsa⟩ := List.mem_flatMap.1 hs
  exact List.filter_eq_nil_iff.1 (hall a ha) s hsa

lemma flatMap_filter_single_mem {κ S : Type} [DecidableEq κ]
    (keys : List κ) (f : κ → List S) (p : S → Bool) (k : κ)
    (hnd : keys.Nodup) (hk : k ∈ keys)
    (hz : ∀ a ∈ keys, a ≠ k → (f a).filter p = []) :
    (keys.flatMap f).filter p = (f k).filter p := by
  induction keys with
  | nil => cases hk
  | cons a rest ih =>
    rw [List.flatMap_cons, List.filter_append]
    have hnd2 := List.nodup_cons.1 hnd
    by_cases hak : a = k
    · subst hak
      rw [flatMap_filter_nil rest f p
        (fun b hb => hz b (by simp [hb]) (fun hbk => hnd2.1 (hbk ▸ hb)))]
      rw [List.append_nil]
    · rw [hz a (by simp) hak, List.nil_append]
      have hkr : k ∈ rest := by
        rcases List.mem_cons.1 hk with rfl | hm
        · exact absurd rfl hak
        · exact hm
      exact ih hnd2.2 hkr (fun b hb hbk => hz b (by simp [hb]) hbk)

/-- C7 (confirmed): in training mode, for every table, every `(year,
month)` group and every fixed cutoff in `{5,10,15,20,25,28}`, the output
contains *exactly one* snapshot for that group and cutoff when the
partial slice `day ≤ cutoff` is non-empty — and it is precisely the
record computed by `mkSnapshot` from the group (total = slice amount sum,
average = that sum divided by the cutoff constant, expensive count =
slice transactions with amount > 100, transaction count = slice size,
target = whole-month sum); cutoffs with an empty slice produce no
snapshot for the group. -/
theorem c7_snapshots (txs : List Tx) (y m c : ℕ) (hc : c ∈ snapshot_days) :
    (sliceUpTo (monthGroup txs y m) c ≠ [] →
      (generate_snapshots txs).filter (snapKeyP y m c)
        = [mkSnapshot (monthGroup txs y m) y m c]) ∧
    (sliceUpTo (monthGroup txs y m) c = [] →
      (generate_snapshots txs).filter (snapKeyP y m c) = []) := by
  have hdaysnd : snapshot_days.Nodup := by decide
  have hkeysnd : (txKeys txs).Nodup :=
    ((List.perm_insertionSort keyLe _).nodup_iff).2 (List.nodup_dedup _)
  have hz : ∀ ym ∈ txKeys txs, ym ≠ (y, m) →
      (snapshotsForKey txs ym).filter (snapKeyP y m c) = [] :=
    fun ym _ hne => snapshotsForKey_ne_key txs y m c ym hne
  have hinner : (snapshotsForKey txs (y, m)).filter (snapKeyP y m c)
      = (snapshotOpt (monthGroup txs y m) y m c).toList :=
    filterMap_days_filter_mem _ y m c snapshot_days hdaysnd hc
  constructor
  · intro hne
    have hkey : (y, m) ∈ txKeys txs := by
      obtain ⟨t, ht⟩ := List.exists_mem_of_ne_nil _ hne
      have htg : t ∈ monthGroup txs y m := (List.mem_filter.1 ht).1
      have hmm := List.mem_filter.1 htg
      have hty : t.year = y ∧ t.month = m := by
        have h2 := hmm.2
        simp at h2
        exact h2
      unfold txKeys
      rw [(List.perm_insertionSort keyLe _).mem_iff, List.mem_dedup]
      exact List.mem_map.2 ⟨t, hmm.1, by rw [hty.1, hty.2]⟩
    have hflat : (generate_snapshots txs).filter (snapKeyP y m c)
        = (snapshotsForKey txs (y, m)).filter (snapKeyP y m c) := by
      unfold generate_snapshots
      exact flatMap_filter_single_mem _ _ _ _ hkeysnd hkey hz
    rw [hflat, hinner]
    unfold snapshotOpt
    rw [if_neg (by simpa [List.isEmpty_iff] using hne)]
    rfl
  · intro hnil
    have hopt : snapshotOpt (monthGroup txs y m) y m c = none := by
      unfold snapshotOpt
      rw [if_pos (by simp [List.isEmpty_iff, hnil])]
    unfold generate_snapshots
    apply flatMap_filter_nil
    intro a ha
    by_cases hane : a = (y, m)
    · subst hane
      rw [hinner, hopt]
      rfl
    · exact hz a ha hane

/-- C7 witness: on `[{day 1, 50}, {day 3, 30}, {day 10, 20}]` (all in
2024-01) the cutoff-5 snapshot is unique and has `total_so_far = 80`,
`avg_daily_so_far = 16` (80/5, dividing by the cutoff, not the count 2),
`num_expensive_transactions = 0`, `num_transactions = 2`, and
`target_total_expenses = 100` (the whole month). -/
theorem c7_witness :
    (5 ∈ snapshot_days) ∧
    sliceUpTo (monthGroup txs7 2024 1) 5 ≠ [] ∧
    (generate_snapshots txs7).filter (snapKeyP 2024 1 5) =
      [{ year := 2024, month := 1, day := 5, total_so_far := 80,
         avg_daily_so_far := 16, num_expensive_transactions := 0,
         num_transactions := 2, target_total_expenses := 100 }] := by
  refine ⟨by decide, by decide, ?_⟩
  rw [(c7_snapshots txs7 2024 1 5 (by decide)).1 (by decide)]
  have hg : monthGroup txs7 2024 1 = txs7 := by decide
  have hs : sliceUpTo txs7 5 =
      [{ year := 2024, month := 1, day := 1, amount := 50 },
       { year := 2024, month := 1, day := 3, amount := 30 }] := by decide
  unfold mkSnapshot
  rw [hg]
  dsimp only
  rw [hs]
  have ht : (([{ year := 2024, month := 1, day := 1, amount := 50 },
      { year := 2024, month := 1, day := 3, amount := 30 }] : List Tx).map
        Tx.amount).sum = (80 : ℚ) := by
    simp
    norm_num
  have he : (([{ year := 2024, month := 1, day := 1, amount := 50 },
      { year := 2024, month := 1, day := 3, amount := 30 }] : List Tx).filter
        (fun t => expensive_threshold < t.amount)).length = 0 := by
    rw [List.filter_cons_of_neg (by norm_num [expensive_threshold])]
    rw [List.filter_cons_of_neg (by norm_num [expensive_threshold])]
    rfl
  have htg : ((txs7.map Tx.amount).sum) = (100 : ℚ) := by
    simp [txs7]
    norm_num
  rw [ht, he, htg]
  norm_num

/-! ### The cumulative daily series -/

lemma buildGo_length (daily : ℕ → ℚ) :
    ∀ (n day : ℕ) (cum : ℚ), (buildGo daily day n cum).length = n := by
  intro n
  induction n with
  | zero => intro day cum; rfl
  | succ k ih => intro day cum; simp [buildGo, ih]

lemma buildGo_getD (daily : ℕ → ℚ) :
    ∀ (n day : ℕ) (cum : ℚ) (k : ℕ), k < n →
      (buildGo daily day n cum).getD k ⟨0, 0⟩ =
        ⟨day + k, round2 (cum + partSum daily day (k + 1))⟩ := by
  intro n
  induction n with
  | zero => intro day cum k hk; cases hk
  | succ nn ih =>
    intro day cum k hk
    cases k with
    | zero => simp [buildGo, partSum]
    | succ kk =>
      have hk2 : kk < nn := Nat.lt_of_succ_lt_succ hk
      rw [show buildGo daily day (nn + 1) cum
          = ⟨day, round2 (cum + daily day)⟩
            :: buildGo daily (day + 1) nn (cum + daily day) from rfl]
      rw [List.getD_cons_succ]
      rw [ih (day + 1) (cum + daily day) kk hk2]
      congr 1
      · omega
      · congr 1
        rw [show partSum daily day (kk + 2)
            = daily day + partSum daily (day + 1) (kk + 1) from rfl]
        ring

lemma partSum_le_succ (daily : ℕ → ℚ) (h : ∀ j, 0 ≤ daily j) :
    ∀ (len start : ℕ), partSum daily start len ≤ partSum daily start (len + 1) := by
  intro len
  induction len with
  | zero =>
    intro start
    rw [show partSum daily start 1 = daily start + partSum daily (start + 1) 0 from rfl]
    rw [show partSum daily start 0 = 0 from rfl]
    rw [show partSum daily (start + 1) 0 = 0 from rfl]
    simpa using h start
  | succ k ih =>
    intro start
    rw [show partSum daily start (k + 1) = daily start + partSum daily (start + 1) k from rfl]
    rw [show partSum daily start (k + 2)
        = daily start + partSum daily (start + 1) (k + 1) from rfl]
    exact add_le_add_left (ih (start + 1)) _

lemma partSum_mono (daily : ℕ → ℚ) (h : ∀ j, 0 ≤ daily j) {a b : ℕ}
    (hab : a ≤ b) (start : ℕ) :
    partSum daily start a ≤ partSum daily start b := by
  induction hab with
  | refl => exact le_rfl
  | step _ ih => exact le_trans ih (partSum_le_succ daily h _ start)

lemma isCent_partSum (daily : ℕ → ℚ) (h : ∀ j, isCent (daily j)) :
    ∀ (len start : ℕ), isCent (partSum daily start len) := by
  intro len
  induction len with
  | zero => intro start; exact isCent_zero
  | succ k ih => intro start; exact isCent_add (h start) (ih (start + 1))

lemma isCent_daily_total (today : CDate) (exps : List PExpense)
    (hc : ∀ e ∈ exps, isCent e.amount) (d : ℕ) :
    isCent (daily_total today exps d) := by
  unfold daily_total
  apply isCent_listSum
  intro x hx
  obtain ⟨e, he, rfl⟩ := List.mem_map.1 hx
  exact hc e ((List.mem_filter.1 ((List.mem_filter.1 he).1)).1)

lemma daily_total_nonneg (today : CDate) (exps : List PExpense)
    (h : ∀ e ∈ exps, 0 ≤ e.amount) (d : ℕ) :
    0 ≤ daily_total today exps d := by
  unfold daily_total
  apply List.sum_nonneg
  intro x hx
  obtain ⟨e, he, rfl⟩ := List.mem_map.1 hx
  exact h e ((List.mem_filter.1 ((List.mem_filter.1 he).1)).1)

/-- C8 (confirmed): when every date parses (the strict-ISO precondition of
this code path) and amounts are non-negative 2-decimal monetary values,
the series has exactly one entry per day `1 .. today.day` (entry `k` is
day `k+1`, so its length is today's day-of-month), each entry's total is
the cumulative sum of the current-month non-future daily totals through
that day (days without transactions contribute 0 through
`daily_total = 0`), and the totals are monotonically non-decreasing in
the day. -/
theorem c8_daily_series (today : CDate) (exps : List PExpense)
    (hp : ∀ e ∈ exps, (parseISO e.date).isSome = true)
    (hnn : ∀ e ∈ exps, 0 ≤ e.amount)
    (hcent : ∀ e ∈ exps, isCent e.amount) :
    ∃ series : List DayEntry,
      get_current_month_expenses today exps = Except.ok series ∧
      series.length = today.day ∧
      (∀ k, k < today.day →
        (series.getD k ⟨0, 0⟩).day = k + 1 ∧
        (series.getD k ⟨0, 0⟩).totalMonthExpensesTillToday =
          partSum (daily_total today exps) 1 (k + 1)) ∧
      (∀ i j, i ≤ j → j < today.day →
        (series.getD i ⟨0, 0⟩).totalMonthExpensesTillToday ≤
          (series.getD j ⟨0, 0⟩).totalMonthExpensesTillToday) := by
  have hany : exps.any (fun e => (parseISO e.date).isNone) = false := by
    rw [List.any_eq_false]
    intro e he
    cases hparse : parseISO e.date with
    | none =>
      have := hp e he
      rw [hparse] at this
      cases this
    | some d => simp [hparse]
  have hcj : ∀ j, isCent (daily_total today exps j) :=
    fun j => isCent_daily_total today exps hcent j
  refine ⟨buildGo (daily_total today exps) 1 today.day 0, ?_, ?_, ?_, ?_⟩
  · unfold get_current_month_expenses
    rw [hany]
    rfl
  · exact buildGo_length _ _ _ _
  · intro k hk
    rw [buildGo_getD (daily_total today exps) today.day 1 0 k hk]
    constructor
    · simp [Nat.add_comm]
    · dsimp only
      rw [zero_add]
      exact round2_of_isCent _ (isCent_partSum _ hcj _ _)
  · intro i j hij hj
    have hi : i < today.day := lt_of_le_of_lt hij hj
    rw [buildGo_getD (daily_total today exps) today.day 1 0 i hi,
      buildGo_getD (daily_total today exps) today.day 1 0 j hj]
    dsimp only
    rw [zero_add, zero_add]
    rw [round2_of_isCent _ (isCent_partSum _ hcj _ _),
      round2_of_isCent _ (isCent_partSum _ hcj _ _)]
    exact partSum_mono _ (fun jj => daily_total_nonneg today exps hnn jj)
      (Nat.succ_le_succ hij) 1

/-- C8 witness: today = 2024-05-03 with two past current-month
transactions (10 on day 1, 5.50 on day 2), one previous-month and one
future transaction: the series exists with length 3 and the stated
per-day cumulative totals and monotonicity. -/
theorem c8_witness :
    ∃ series : List DayEntry,
      get_current_month_expenses ⟨2024, 5, 3⟩ elist8 = Except.ok series ∧
      series.length = 3 ∧
      (∀ k, k < 3 →
        (series.getD k ⟨0, 0⟩).day = k + 1 ∧
        (series.getD k ⟨0, 0⟩).totalMonthExpensesTillToday =
          partSum (daily_total ⟨2024, 5, 3⟩ elist8) 1 (k + 1)) ∧
      (∀ i j, i ≤ j → j < 3 →
        (series.getD i ⟨0, 0⟩).totalMonthExpensesTillToday ≤
          (series.getD j ⟨0, 0⟩).totalMonthExpensesTillToday) := by
  apply c8_daily_series
  · intro e he
    fin_cases he <;> decide
  · intro e he
    fin_cases he <;> norm_num [elist8]
  · intro e he
    fin_cases he
    · exact ⟨1000, by norm_num⟩
    · exact ⟨550, by norm_num⟩
    · exact ⟨700, by norm_num⟩
    · exact ⟨200, by norm_num⟩

/-- C10 (confirmed): the forecast path parses every row's date strictly
as `%Y-%m-%d` only; a table containing any date not in that format (for
example the `%d/%m/%Y` string "15/01/2024") makes
`get_current_month_expenses` raise, aborting the invocation — the
two-format tolerance of the classification path is not applied here. -/
theorem c10_strict_iso :
    (∀ (today : CDate) (exps : List PExpense),
      (∃ e ∈ exps, parseISO e.date = none) →
      ∃ msg, get_current_month_expenses today exps = Except.error msg) ∧
    parseISO "15/01/2024" = none ∧ parseDMY "15/01/2024" ≠ none := by
  refine ⟨?_, by decide, by decide⟩
  rintro today exps ⟨e, he, hbad⟩
  refine ⟨"time data does not match format %Y-%m-%d", ?_⟩
  unfold get_current_month_expenses
  rw [if_pos (List.any_eq_true.2 ⟨e, he, by simp [hbad]⟩)]

/-- C10 witness: a ledger whose only date is in `%d/%m/%Y` aborts the
forecast invocation with a parse error. -/
theorem c10_witness :
    ∃ msg, get_current_month_expenses ⟨2024, 5, 3⟩
      [{ amount := 10, date := "15/01/2024" }] = Except.error msg :=
  c10_strict_iso.1 ⟨2024, 5, 3⟩ _
    ⟨{ amount := 10, date := "15/01/2024" }, by simp, by decide⟩
